import Mathlib

/-!
# Verification of the ChirpStack-lab LoRaWAN device simulator

A shallow embedding, in Lean 4, of the parts of the Python simulator
(`src/simulator/`) that the specification's claims talk about:

* `utils.py` — FRMPayload keystream encryption (`encrypt_payload`),
  AES-CMAC MIC (`calculate_mic`), LoRa airtime (`calculate_airtime`);
* `mac_commands.py` — `parse_mac_commands` and the MAC-command handlers
  (in particular `_handle_dev_status_req`);
* `lorawan_protocol.py` — `build_uplink_frame`;
* `lorawan_stack.py` — the send pipeline (`safe_send` / `_send` /
  `_send_nb_transmissions` / `_check_channel_availability`), the confirmed
  retry loop, downlink reception (`_receive_downlink_message`) and
  `_process_downlink`;
* `radio_phy.py` — the set of methods actually defined on `RadioPHY`.

Bytes are modelled as `Nat` (values < 256 where the Python code would
build a `bytes` object), byte strings as `List Nat`.  Python operations
that raise exceptions on some inputs (`struct.pack('<H', n)` for
`n ≥ 2^16`, `int.to_bytes` overflow, `bytearray` item assignment with a
value ≥ 256, FOpts longer than 15 bytes, attribute lookup of a method the
class does not define) are modelled with `Option`/`Except`.  The AES-ECB
block cipher and AES-CMAC come from an external crypto library, so they
enter the model as function parameters (`aes`, `cmac`); facts that depend
on them carry the hypotheses the library guarantees (16-byte outputs).
-/

/-- Model of `struct.pack('<H', n)`: the two little-endian bytes of `n`.
Raises `struct.error` (here: `none`) when `n` does not fit 16 bits. -/
def packU16LE (n : Nat) : Option (List Nat) :=
  if n < 65536 then some [n % 256, n / 256] else none

/-- Guard for building the `A_i` keystream block of `encrypt_payload`
(`utils.py` lines 22-31): `struct.pack('<H', fcnt)` raises for
`fcnt ≥ 2^16`; `a_block[5] = direction` and `a_block[15] = i` raise
`ValueError` for values ≥ 256; a DevAddr that is not 4 bytes resizes the
16-byte block so that `AES.encrypt` rejects it (the source's docstring
fixes DevAddr at 4 bytes). -/
def aBlockOk (devaddr : List Nat) (fcnt direction i : Nat) : Bool :=
  fcnt < 65536 && direction < 256 && devaddr.length == 4 && i < 256

/-- The 16-byte `A_i` block of `utils.py` `encrypt_payload`:
`[0x01, 0,0,0,0, dir, DevAddr[::-1], FCnt as '<H', 0,0,0, i]`.
Note bytes 12..14 stay zero: the frame counter occupies only bytes
10..11 (16 bits), not the 32-bit field 10..13 of LoRaWAN A.3. -/
def aBlockBytes (devaddr : List Nat) (fcnt direction i : Nat) : List Nat :=
  [0x01, 0, 0, 0, 0, direction] ++ devaddr.reverse ++
    [fcnt % 256, fcnt / 256] ++ [0, 0, 0, i]

/-- The keystream of `encrypt_payload` (`utils.py` lines 17-36): AES-ECB
encryptions of `A_1, A_2, …` concatenated and truncated to `size` bytes.
The Python `while len(enc) < size` loop consumes `⌈size/16⌉` blocks since
each AES-ECB output is 16 bytes; a block whose construction raises is
`none`. -/
def keystream (aes : List Nat → List Nat → List Nat) (key devaddr : List Nat)
    (fcnt direction size : Nat) : Option (List Nat) :=
  let n := (size + 15) / 16
  if (List.range n).all (fun j => aBlockOk devaddr fcnt direction (j + 1)) then
    some ((((List.range n).map
      (fun j => aes key (aBlockBytes devaddr fcnt direction (j + 1)))).flatten).take size)
  else
    none

/-- Model of `utils.py` `encrypt_payload`: XOR the payload with the AES-ECB
keystream derived from `(app_skey, devaddr, fcnt, direction)`.  The
cipher `AES.new(app_skey, AES.MODE_ECB).encrypt` is the parameter
`aes key`. -/
def encrypt_payload (aes : List Nat → List Nat → List Nat)
    (payload app_skey devaddr : List Nat) (fcnt direction : Nat) :
    Option (List Nat) :=
  (keystream aes app_skey devaddr fcnt direction payload.length).map
    (fun enc => List.zipWith (fun p s => p ^^^ s) payload enc)

/-- Guard for the `B0` block of `calculate_mic` (`utils.py` lines 52-57):
`struct.pack('<H', fcnt)` raises for `fcnt ≥ 2^16` and
`b0[15] = len(phy)` raises for a message of 256 bytes or more. -/
def b0Ok (fcnt msgLen : Nat) : Bool :=
  fcnt < 65536 && msgLen < 256

/-- The 16-byte `B0` block of `utils.py` `calculate_mic`:
`[0x49, 0,0,0,0, 0x00, DevAddr[::-1], FCnt as '<H', 0,0,0, len(phy)]`.
As in `aBlockBytes`, bytes 12..14 stay zero. -/
def b0Block (devaddr : List Nat) (fcnt msgLen : Nat) : List Nat :=
  [0x49, 0, 0, 0, 0, 0] ++ devaddr.reverse ++
    [fcnt % 256, fcnt / 256] ++ [0, 0, 0, msgLen]

/-- Model of `utils.py` `calculate_mic`: the first 4 bytes of
`AES-CMAC(nwk_skey, B0 ‖ phy)`.  The CMAC primitive is the parameter
`cmac`. -/
def calculate_mic (cmac : List Nat → List Nat → List Nat)
    (phy nwk_skey devaddr : List Nat) (fcnt : Nat) : Option (List Nat) :=
  if b0Ok fcnt phy.length then
    some ((cmac nwk_skey (b0Block devaddr fcnt phy.length ++ phy)).take 4)
  else
    none

/-- The payload symbol count of `utils.py` `calculate_airtime`:
`8 + max(int((8*N - 4*sf + 28 + 16) / (4*(sf-2))) * 4, 0)`.
Python's `int()` on the float quotient truncates toward zero, which for
the integer ranges reachable here (|numerator| < 2^20, denominator ≤ 40)
agrees exactly with integer truncated division, so it is `Int.tdiv`. -/
def payload_symb_nb (payload_size sf : Nat) : Int :=
  8 + max ((Int.tdiv (8 * (payload_size : Int) - 4 * (sf : Int) + 28 + 16)
    (4 * ((sf : Int) - 2))) * 4) 0

/-- Model of `utils.py` `calculate_airtime`: `(8 + payload_symb_nb) · 2^sf / (bw·1000)`
seconds (preamble of 8 symbols).  Exact rational arithmetic stands in for
Python floats; the claims compare symbol counts, which are integers. -/
def calculate_airtime (payload_size sf bw : Nat) : ℚ :=
  (8 + (payload_symb_nb payload_size sf : ℚ)) * ((2 ^ sf : ℚ) / ((bw : ℚ) * 1000))

/-- The payload symbol count as §4.3 of the specification states it, with
*ceiling* division: `8 + max(⌈(8N − 4·SF + 28 + 16) / (4(SF−2))⌉ · 4, 0)`.
(For positive `b`, `⌈a/b⌉ = ⌊(a + b - 1)/b⌋`.)  This definition follows
the spec's words, to be compared with `payload_symb_nb` above. -/
def payload_symb_nb_specified (payload_size sf : Nat) : Int :=
  8 + max ((Int.ediv (8 * (payload_size : Int) - 4 * (sf : Int) + 28 + 16
    + (4 * ((sf : Int) - 2) - 1)) (4 * ((sf : Int) - 2))) * 4) 0

/-- A stand-in block cipher for concrete witnesses: every 16-byte AES-ECB
output is the zero block.  Only its output length matters to the
theorems, which hold for every cipher of 16-byte blocks. -/
def aesZero : List Nat → List Nat → List Nat := fun _ _ => List.replicate 16 0

/-- A stand-in CMAC for concrete witnesses: the zero 16-byte tag. -/
def cmacZero : List Nat → List Nat → List Nat := fun _ _ => List.replicate 16 0

/-- A concrete DevAddr (the spec's example device `26011BDA`). -/
def devAddrEx : List Nat := [0x26, 0x01, 0x1B, 0xDA]

/-- XOR-ing a list with the same keystream twice restores the prefix of
the list the keystream covers. -/
theorem zipWith_xor_cancel (x : List Nat) : ∀ ks : List Nat,
    List.zipWith (fun p s => p ^^^ s)
      (List.zipWith (fun p s => p ^^^ s) x ks) ks = x.take ks.length := by
  induction x with
  | nil => intro ks; simp
  | cons p x ih =>
    intro ks
    cases ks with
    | nil => simp
    | cons s ks => simp [ih ks, Nat.xor_cancel_right]

/-- Flattening a list of 16-byte blocks yields `16 · #blocks` bytes. -/
theorem flatten_length_of_const16 (l : List (List Nat))
    (h : ∀ b ∈ l, b.length = 16) : l.flatten.length = 16 * l.length := by
  induction l with
  | nil => simp
  | cons a l ih =>
    simp only [List.flatten_cons, List.length_append, List.length_cons]
    rw [h a (by simp), ih (fun b hb => h b (by simp [hb]))]
    ring

/-- On the inputs where no `A_i` block construction raises (16-bit frame
counter, byte direction, 4-byte DevAddr, at most 255 blocks), the
keystream exists and has exactly the requested size. -/
theorem keystream_total (aes : List Nat → List Nat → List Nat)
    (key devaddr : List Nat) (fcnt direction size : Nat)
    (haes : ∀ b, (aes key b).length = 16) (hf : fcnt < 65536)
    (hd : direction < 256) (hda : devaddr.length = 4) (hsize : size ≤ 4080) :
    ∃ ks, keystream aes key devaddr fcnt direction size = some ks ∧
      ks.length = size := by
  have hall : (List.range ((size + 15) / 16)).all
      (fun j => aBlockOk devaddr fcnt direction (j + 1)) = true := by
    rw [List.all_eq_true]
    intro j hj
    rw [List.mem_range] at hj
    simp only [aBlockOk, Bool.and_eq_true, decide_eq_true_eq, beq_iff_eq]
    exact ⟨⟨⟨hf, hd⟩, hda⟩, by omega⟩
  set blocks := (List.range ((size + 15) / 16)).map
      (fun j => aes key (aBlockBytes devaddr fcnt direction (j + 1))) with hb
  have hkey : keystream aes key devaddr fcnt direction size =
      some (blocks.flatten.take size) := by
    unfold keystream
    rw [if_pos hall]
  have hfl : blocks.flatten.length = 16 * ((size + 15) / 16) := by
    rw [flatten_length_of_const16]
    · rw [hb, List.length_map, List.length_range]
    · intro b hbm
      rw [hb, List.mem_map] at hbm
      obtain ⟨j, _, rfl⟩ := hbm
      exact haes _
  refine ⟨_, hkey, ?_⟩
  rw [List.length_take, hfl]
  omega

/-- C4 (amended): on every input where `encrypt_payload` does not raise
(frame counter below `2^16`, direction a byte, 4-byte DevAddr, payload at
most 4080 bytes) and for every block cipher producing 16-byte blocks,
applying `encrypt_payload` twice with the same arguments returns the
original payload: the keystream XOR is its own inverse. -/
theorem encrypt_payload_self_inverse (aes : List Nat → List Nat → List Nat)
    (x key da : List Nat) (f d : Nat)
    (haes : ∀ b, (aes key b).length = 16) (hf : f < 65536) (hd : d < 256)
    (hda : da.length = 4) (hx : x.length ≤ 4080) :
    (encrypt_payload aes x key da f d).bind
      (fun y => encrypt_payload aes y key da f d) = some x := by
  obtain ⟨ks, hks, hlen⟩ :=
    keystream_total aes key da f d x.length haes hf hd hda hx
  have h1 : encrypt_payload aes x key da f d =
      some (List.zipWith (fun p s => p ^^^ s) x ks) := by
    unfold encrypt_payload; rw [hks]; rfl
  have hylen : (List.zipWith (fun p s => p ^^^ s) x ks).length = x.length := by
    rw [List.length_zipWith, hlen, Nat.min_self]
  have hcancel := zipWith_xor_cancel x ks
  rw [hlen, List.take_length] at hcancel
  have h2 : encrypt_payload aes
      (List.zipWith (fun p s => p ^^^ s) x ks) key da f d = some x := by
    unfold encrypt_payload
    rw [hylen, hks]
    show Option.map _ _ = _
    show some (List.zipWith (fun p s => p ^^^ s)
      (List.zipWith (fun p s => p ^^^ s) x ks) ks) = some x
    rw [hcancel]
  rw [h1]
  exact h2

/-- C4 witness: the double application restores the concrete payload
`[0x01, 0x64]` for the example device at frame counter 7. -/
theorem encrypt_payload_self_inverse_witness :
    (encrypt_payload aesZero [1, 100] [] devAddrEx 7 0).bind
      (fun y => encrypt_payload aesZero y [] devAddrEx 7 0) = some [1, 100] :=
  encrypt_payload_self_inverse aesZero [1, 100] [] devAddrEx 7 0
    (fun _ => rfl) (by decide) (by decide) (by decide) (by decide)

/-- C4 counterexample: at frame counter `2^16` the first application of
`encrypt_payload` raises `struct.error` (the model returns `none`), so
the claimed identity fails as stated for that input. -/
theorem encrypt_payload_double_fails_at_2pow16 :
    (encrypt_payload aesZero [1] [] devAddrEx 65536 0).bind
      (fun y => encrypt_payload aesZero y [] devAddrEx 65536 0) ≠
      some [1] := by decide

/-- C3: at frame counter `2^16` both `encrypt_payload` and
`calculate_mic` raise `struct.error` from `struct.pack('<H', fcnt)`
(modelled as `none`): the `A_i`/`B0` blocks hold only a 16-bit frame
counter in bytes 10..11, not the 32-bit counter of bytes 10..13 the
specification mandates. -/
theorem frame_counter_pack_overflow_at_2pow16 :
    encrypt_payload aesZero [1, 100] [] devAddrEx 65536 0 = none ∧
    calculate_mic cmacZero [0x40, 1] [] devAddrEx 65536 = none := by decide

/-- C6: the source computes the payload symbol count with Python `int()`
truncation where the specification requires ceiling division: at
`N = 1, SF = 7, BW = 125` the code yields 12 payload symbols (airtime
`(8+12)·2^7/125000 = 64/3125 s`) while the spec formula yields 16. -/
theorem calculate_airtime_truncates_not_ceiling :
    payload_symb_nb 1 7 = 12 ∧ payload_symb_nb_specified 1 7 = 16 ∧
    calculate_airtime 1 7 125 = 64 / 3125 := by
  refine ⟨by decide, by decide, ?_⟩
  have h : payload_symb_nb 1 7 = 12 := by decide
  rw [calculate_airtime, h]
  norm_num

/-- A decoded MAC command of `mac_commands.py` (`MacCommand`): the CID
byte and the raw payload bytes.  The source also stores a display name
and a decoded key-value mapping derived from these two fields; they do
not affect which commands are produced, so they are omitted here. -/
structure MacCommand where
  cid : Nat
  payload : List Nat
  deriving DecidableEq

/-- The `CID_LENGTHS` registry of `mac_commands.py`: payload length per
supported CID, `none` for unknown CIDs. -/
def CID_LENGTHS : Nat → Option Nat
  | 0x02 => some 0
  | 0x03 => some 4
  | 0x04 => some 1
  | 0x05 => some 4
  | 0x06 => some 0
  | 0x07 => some 5
  | 0x08 => some 1
  | _ => none

/-- Model of `mac_commands.py` `parse_mac_commands` (lines 50-74): walk the byte
stream; an unknown CID logs a warning and `continue`s after consuming
just the CID byte; a known CID whose payload would run past the end logs
and `break`s; otherwise the command is decoded and the cursor advances
past its payload. -/
def parseMacGo : Nat → List Nat → List MacCommand
  | _, [] => []
  | 0, _ :: _ => []
  | fuel + 1, cid :: rest =>
    match CID_LENGTHS cid with
    | none => parseMacGo fuel rest
    | some len =>
      if len ≤ rest.length then
        ⟨cid, rest.take len⟩ :: parseMacGo fuel (rest.drop len)
      else
        []

/-- Entry point matching the source function.  Every loop iteration
consumes at least one byte, so `data.length` steps always suffice: the
fuel argument of `parseMacGo` never runs out. -/
def parse_mac_commands (data : List Nat) : List MacCommand :=
  parseMacGo data.length data

/-- C5 counterexample: on the stream `FF 02` the parser does not stop at
the unknown CID `0xFF`; it skips that byte and decodes the LinkCheckReq
`0x02` that follows, so the result is not the commands decoded before
the unknown byte (which would be none). -/
theorem parse_mac_commands_continues_after_unknown_cid :
    parse_mac_commands [0xFF, 0x02] = [⟨0x02, []⟩] ∧
    parse_mac_commands [0xFF, 0x02] ≠ [] := by decide

/-- C5 (amended): on an unknown CID `parse_mac_commands` consumes exactly
one byte (the CID) and continues parsing from the next byte, rather than
stopping; for a known CID whose payload is truncated it stops, returning
only the commands decoded so far. -/
theorem parse_mac_commands_skip_unknown_stop_truncated :
    (∀ bad rest, CID_LENGTHS bad = none →
      parse_mac_commands (bad :: rest) = parse_mac_commands rest) ∧
    (∀ cid len rest, CID_LENGTHS cid = some len → rest.length < len →
      parse_mac_commands (cid :: rest) = []) := by
  constructor
  · intro bad rest h
    show parseMacGo (bad :: rest).length (bad :: rest) = parseMacGo rest.length rest
    rw [List.length_cons, parseMacGo, h]
  · intro cid len rest h hlt
    show parseMacGo (cid :: rest).length (cid :: rest) = []
    rw [List.length_cons, parseMacGo, h]
    simp only [if_neg (by omega : ¬ len ≤ rest.length)]

/-- C5 witness: the unknown CID `0xFF` is skipped and parsing continues
(`FF 02` parses like `02`); a LinkADRReq `0x03` with a 1-byte payload is
truncated and parsing stops. -/
theorem parse_mac_commands_skip_stop_witness :
    parse_mac_commands [0xFF, 0x02] = parse_mac_commands [0x02] ∧
    parse_mac_commands [0x03, 0x01] = [] :=
  ⟨parse_mac_commands_skip_unknown_stop_truncated.1 0xFF [0x02] (by decide),
   parse_mac_commands_skip_unknown_stop_truncated.2 0x03 4 [0x01] (by decide)
     (by decide)⟩

/-- Python `int()` on a rational value: truncation toward zero. -/
def pyInt (q : ℚ) : Int :=
  if q < 0 then ⌈q⌉ else ⌊q⌋

/-- The margin computed by `_handle_dev_status_req` (`mac_commands.py`
lines 196-209): `max(-32, min(int(margin), 31))`, starting from
`self.radio.last_snr` when that attribute exists (the stack sets it on
downlink acceptance) and `0` otherwise. -/
def devStatusMargin (last_snr : Option ℚ) : Int :=
  max (-32) (min (pyInt (last_snr.getD 0)) 31)

/-- The DevStatusAns payload queued by `_handle_dev_status_req`:
`bytes([battery, margin & 0xFF])` — the battery byte from the
application hook and the low 8 bits of the clamped margin's two's
complement. -/
def devStatusAns (battery : Nat) (last_snr : Option ℚ) : List Nat :=
  [battery, ((devStatusMargin last_snr) % 256).toNat]

/-- Evaluating `pyInt` on an integer is the identity on integers. -/
theorem pyInt_intCast (n : Int) : pyInt ((n : ℚ)) = n := by
  unfold pyInt
  split
  · exact Int.ceil_intCast n
  · exact Int.floor_intCast n

/-- The margin for a last SNR of `-5` dB is `-5`. -/
theorem devStatusMargin_neg5 : devStatusMargin (some (-5)) = -5 := by
  have h : ((-5 : Int) : ℚ) = (-5 : ℚ) := by norm_num
  unfold devStatusMargin
  show max (-32) (min (pyInt ((-5 : ℚ))) 31) = -5
  rw [← h, pyInt_intCast]
  decide

/-- C7 counterexample: for a last SNR of `-5` dB the queued DevStatusAns
margin byte is `0xFB = 251`: an 8-bit two's complement with the top two
bits set, not the 6-bit two's-complement value `0x3B = 59` the claim
describes (and not even a value below 64). -/
theorem devStatusAns_not_6bit_twos_complement :
    devStatusAns 255 (some (-5)) = [255, 251] ∧
    ¬ (251 : Nat) < 64 ∧ (251 : Nat) ≠ ((-5 : Int) % 64).toNat := by
  refine ⟨?_, by decide, by decide⟩
  unfold devStatusAns
  rw [devStatusMargin_neg5]
  decide

/-- C7 (amended): DevStatusReq queues the 2-byte answer
`[battery, margin-byte]` with the margin clamped to `[-32, 31]` as
claimed, but the margin byte is the low 8 bits of the margin's two's
complement (`margin & 0xFF`): non-negative margins are stored directly
(below 32), while negative margins are stored as `256 + margin`, which
sets the byte's top two bits — an 8-bit, not 6-bit, encoding. -/
theorem devStatusAns_clamped_8bit (battery : Nat) (snr : Option ℚ) :
    -32 ≤ devStatusMargin snr ∧ devStatusMargin snr ≤ 31 ∧
    devStatusAns battery snr =
      [battery, ((devStatusMargin snr) % 256).toNat] ∧
    (0 ≤ devStatusMargin snr →
      ((devStatusMargin snr) % 256).toNat = (devStatusMargin snr).toNat ∧
      ((devStatusMargin snr) % 256).toNat < 32) ∧
    (devStatusMargin snr < 0 →
      ((devStatusMargin snr) % 256).toNat = (256 + devStatusMargin snr).toNat ∧
      192 ≤ ((devStatusMargin snr) % 256).toNat) := by
  have h1 : -32 ≤ devStatusMargin snr := le_max_left _ _
  have h2 : devStatusMargin snr ≤ 31 :=
    max_le (by norm_num) (min_le_right _ _)
  refine ⟨h1, h2, rfl, ?_, ?_⟩
  · intro h0
    omega
  · intro hneg
    omega

/-- C7 witness: at battery 240 and last SNR `-5` dB, the amended theorem
applies and yields the concrete answer bytes `[240, 251]` with the top
two bits of the margin byte set. -/
theorem devStatusAns_clamped_8bit_witness :
    devStatusAns 240 (some (-5)) = [240, 251] ∧
    192 ≤ ((devStatusMargin (some (-5))) % 256).toNat := by
  have h := devStatusAns_clamped_8bit 240 (some (-5))
  have hm := devStatusMargin_neg5
  refine ⟨?_, (h.2.2.2.2 (by rw [hm]; decide)).2⟩
  rw [h.2.2.1, hm]
  decide

/-- A list of length 4 is a 4-element literal. -/
theorem list_length_eq_four {l : List Nat} (h : l.length = 4) :
    ∃ a b c d, l = [a, b, c, d] := by
  obtain _ | ⟨a, _ | ⟨b, _ | ⟨c, _ | ⟨d, _ | ⟨e, t⟩⟩⟩⟩⟩ := l
  all_goals simp only [List.length_nil, List.length_cons] at h
  all_goals first
  | exact ⟨_, _, _, _, rfl⟩
  | omega

/-- Model of `lorawan_protocol.py` `build_uplink_frame` (lines 24-67): reject
FOpts longer than 15 bytes (`ValueError`); serialize the frame counter
as 2 little-endian bytes (`int.to_bytes(2)` raises `OverflowError` at
`2^16`, modelled like `packU16LE`); encrypt the FRMPayload under NwkSKey
iff `fport == 0` else AppSKey; assemble
`MHDR ‖ DevAddr[::-1] ‖ FCtrl ‖ FCnt ‖ FOpts ‖ FPort ‖ encrypted ‖ MIC`
with `MHDR = 0x80/0x40` for confirmed/unconfirmed and
`FCtrl = len(fopts)` (`fport.to_bytes(1)` raises for `fport ≥ 256`).
The device identity and keys arrive here as byte lists (the source
derives them from hex strings with `bytes.fromhex`); the source's
`frame_counter += 1` after the build is modelled at the call sites. -/
def build_uplink_frame (aes cmac : List Nat → List Nat → List Nat)
    (devaddr nwk_skey app_skey : List Nat) (frame_counter : Nat)
    (payload : List Nat) (fport : Nat) (confirmed : Bool) (fopts : List Nat) :
    Option (List Nat) :=
  if 15 < fopts.length then none
  else
    match packU16LE frame_counter with
    | none => none
    | some fcnt_bytes =>
      match encrypt_payload aes payload
          (if fport = 0 then nwk_skey else app_skey) devaddr frame_counter 0 with
      | none => none
      | some encrypted_payload =>
        if 256 ≤ fport then none
        else
          (calculate_mic cmac
            ((if confirmed then [0x80] else [0x40]) ++
              (devaddr.reverse ++ [fopts.length] ++ fcnt_bytes ++ fopts ++
                [fport] ++ encrypted_payload))
            nwk_skey devaddr frame_counter).map
            (fun mic =>
              (if confirmed then [0x80] else [0x40]) ++
                (devaddr.reverse ++ [fopts.length] ++ fcnt_bytes ++ fopts ++
                  [fport] ++ encrypted_payload) ++ mic)

/-- On every input where the embedded Python primitives do not raise,
`build_uplink_frame` succeeds and the resulting PHYPayload has the
layout length and FCtrl byte of the uplink frame format. -/
theorem build_uplink_frame_total
    (aes cmac : List Nat → List Nat → List Nat) (devaddr nwk app : List Nat)
    (fcnt : Nat) (payload : List Nat) (fport : Nat) (confirmed : Bool)
    (fopts : List Nat)
    (haes : ∀ b, (aes (if fport = 0 then nwk else app) b).length = 16)
    (hcmac : ∀ k m, (cmac k m).length = 16)
    (hda : devaddr.length = 4) (hf : fcnt < 65536) (hfp : fport < 256)
    (hfo : fopts.length ≤ 15) (hsz : payload.length + fopts.length ≤ 246) :
    ∃ P, build_uplink_frame aes cmac devaddr nwk app fcnt payload fport
        confirmed fopts = some P ∧
      P.length = 1 + 4 + 1 + 2 + fopts.length + (1 + payload.length) + 4 ∧
      P[5]? = some fopts.length := by
  obtain ⟨ks, hks, hkslen⟩ :=
      keystream_total aes (if fport = 0 then nwk else app) devaddr fcnt 0
        payload.length haes hf (by omega) hda (by omega)
  have henc : encrypt_payload aes payload
      (if fport = 0 then nwk else app) devaddr fcnt 0 =
      some (List.zipWith (fun p s => p ^^^ s) payload ks) := by
    unfold encrypt_payload; rw [hks]; rfl
  have hE : (List.zipWith (fun p s => p ^^^ s) payload ks).length =
      payload.length := by
    rw [List.length_zipWith, hkslen, Nat.min_self]
  have hpack : packU16LE fcnt = some [fcnt % 256, fcnt / 256] := by
    unfold packU16LE; rw [if_pos hf]
  obtain ⟨a, b, c, d, rfl⟩ := list_length_eq_four hda
  have hm1 : (if confirmed then ([0x80] : List Nat) else [0x40]).length = 1 := by
    cases confirmed <;> rfl
  have hplen : ((if confirmed then ([0x80] : List Nat) else [0x40]) ++
      ([a, b, c, d].reverse ++ [fopts.length] ++ [fcnt % 256, fcnt / 256] ++
        fopts ++ [fport] ++
        List.zipWith (fun p s => p ^^^ s) payload ks)).length =
      9 + fopts.length + payload.length := by
    simp only [List.length_append, hm1, hE, List.length_reverse,
      List.length_cons, List.length_nil]
    omega
  have hmic : calculate_mic cmac
      ((if confirmed then ([0x80] : List Nat) else [0x40]) ++
        ([a, b, c, d].reverse ++ [fopts.length] ++ [fcnt % 256, fcnt / 256] ++
          fopts ++ [fport] ++
          List.zipWith (fun p s => p ^^^ s) payload ks))
      nwk [a, b, c, d] fcnt =
      some ((cmac nwk (b0Block [a, b, c, d] fcnt
        (9 + fopts.length + payload.length) ++
        ((if confirmed then ([0x80] : List Nat) else [0x40]) ++
          ([a, b, c, d].reverse ++ [fopts.length] ++ [fcnt % 256, fcnt / 256] ++
            fopts ++ [fport] ++
            List.zipWith (fun p s => p ^^^ s) payload ks)))).take 4) := by
    unfold calculate_mic
    rw [hplen, if_pos]
    unfold b0Ok
    simp only [Bool.and_eq_true, decide_eq_true_eq]
    omega
  unfold build_uplink_frame
  simp only [if_neg (by omega : ¬ 15 < fopts.length), hpack, henc,
    if_neg (by omega : ¬ 256 ≤ fport), hmic]
  refine ⟨_, rfl, ?_, ?_⟩
  · simp only [List.length_append, hm1, hE, List.length_reverse,
      List.length_cons, List.length_nil, List.length_take, hcmac]
    omega
  · cases confirmed <;> rfl

/-- A FOpts list longer than 15 bytes makes `build_uplink_frame` raise
`ValueError` before anything else happens. -/
theorem build_uplink_frame_fopts_too_long
    (aes cmac : List Nat → List Nat → List Nat) (devaddr nwk app : List Nat)
    (fcnt : Nat) (payload : List Nat) (fport : Nat) (confirmed : Bool)
    (fopts : List Nat) (h16 : 15 < fopts.length) :
    build_uplink_frame aes cmac devaddr nwk app fcnt payload fport
      confirmed fopts = none := by
  unfold build_uplink_frame
  rw [if_pos h16]

/-- C8: on every input where the embedded Python primitives do not raise
(16-byte cipher and CMAC outputs, 4-byte DevAddr, 16-bit frame counter,
byte FPort, frame short enough for the MIC's one-byte length field),
`build_uplink_frame` with FOpts of at most 15 bytes returns a PHYPayload
of length `1 + 4 + 1 + 2 + fopts_len + (1 + |encrypted|) + 4` whose byte
5 (FCtrl) equals `fopts_len` (which is its own low nibble); FOpts of
length 16 is rejected with an error instead of building a frame. -/
theorem build_uplink_frame_layout :
    (∀ aes cmac devaddr nwk app fcnt payload fport confirmed fopts,
      (∀ b, (aes (if fport = 0 then nwk else app) b).length = 16) →
      (∀ k m, (cmac k m).length = 16) →
      devaddr.length = 4 → fcnt < 65536 → fport < 256 →
      fopts.length ≤ 15 → payload.length + fopts.length ≤ 246 →
      ∃ P, build_uplink_frame aes cmac devaddr nwk app fcnt payload fport
          confirmed fopts = some P ∧
        P.length = 1 + 4 + 1 + 2 + fopts.length + (1 + payload.length) + 4 ∧
        P[5]? = some fopts.length ∧ fopts.length % 16 = fopts.length) ∧
    (∀ aes cmac devaddr nwk app fcnt payload fport confirmed fopts,
      fopts.length = 16 →
      build_uplink_frame aes cmac devaddr nwk app fcnt payload fport
        confirmed fopts = none) := by
  constructor
  · intro aes cmac devaddr nwk app fcnt payload fport confirmed fopts
      haes hcmac hda hf hfp hfo hsz
    obtain ⟨P, hP, hlen, hctrl⟩ := build_uplink_frame_total aes cmac devaddr
      nwk app fcnt payload fport confirmed fopts haes hcmac hda hf hfp hfo hsz
    exact ⟨P, hP, hlen, hctrl, by omega⟩
  · intro aes cmac devaddr nwk app fcnt payload fport confirmed fopts h16
    exact build_uplink_frame_fopts_too_long aes cmac devaddr nwk app fcnt
      payload fport confirmed fopts (by omega)

/-- C8 witness: the concrete frame of the spec's scenario 1 — DevAddr
`26011BDA`, frame counter 0, FPort 1, payload `0x0164`, no FOpts —
builds to a 15-byte PHYPayload with FCtrl byte 0, while a 16-byte FOpts
list is rejected. -/
theorem build_uplink_frame_layout_witness :
    (∃ P, build_uplink_frame aesZero cmacZero devAddrEx [] [] 0 [1, 100] 1
        false [] = some P ∧
      P.length = 1 + 4 + 1 + 2 + 0 + (1 + 2) + 4 ∧
      P[5]? = some 0 ∧ 0 % 16 = 0) ∧
    build_uplink_frame aesZero cmacZero devAddrEx [] [] 0 [1, 100] 1 false
      (List.replicate 16 0) = none := by
  constructor
  · have h := build_uplink_frame_layout.1 aesZero cmacZero devAddrEx [] [] 0
      [1, 100] 1 false [] (fun _ => rfl) (fun _ _ => rfl) (by decide)
      (by decide) (by decide) (by decide) (by decide)
    simpa using h
  · exact build_uplink_frame_layout.2 aesZero cmacZero devAddrEx [] [] 0
      [1, 100] 1 false (List.replicate 16 0) (by decide)

/-- The Python exceptions the embedded stack code can raise.
`buildError` stands for the `ValueError`/`OverflowError`/`struct.error`
family raised while building or decrypting a frame; `indexError` for
out-of-range byte indexing. -/
inductive PyError where
  | attributeError
  | buildError
  | indexError
  deriving DecidableEq

/-- Result of running a piece of Python code: a value, or a raised
exception propagating out. -/
inductive PyResult (α : Type) where
  | ok (value : α)
  | error (e : PyError)
  deriving DecidableEq

/-- Method names looked up on the stack's radio object.  The first
twelve are the methods `class RadioPHY` in `radio_phy.py` defines; the
last three are looked up by `lorawan_stack.py` / `mac_commands.py` but
appear nowhere in `radio_phy.py`. -/
inductive RadioMethod where
  | get_spreading_factor
  | get_bandwidth
  | get_current_frequency
  | set_rx_params
  | get_symbol_duration
  | get_window_duration
  | update_link_adr
  | add_channel
  | apply_channel_mask
  | rotate_channel
  | can_transmit
  | record_transmission
  | can_transmit_aggregated
  | get_rx1_datarate
  | set_max_duty_cycle
  deriving DecidableEq

/-- Python attribute lookup on a `radio_phy.RadioPHY` instance: `true`
exactly for the methods the class body defines.  `lorawan_stack.py`
constructs its radio as `RadioPHY()` from `radio_phy.py` (line 25), so
`can_transmit_aggregated` (line 151), `get_rx1_datarate` (line 253) and
`set_max_duty_cycle` (`mac_commands.py` line 160) all miss. -/
def radioPHY_defined : RadioMethod → Bool
  | .can_transmit_aggregated => false
  | .get_rx1_datarate => false
  | .set_max_duty_cycle => false
  | _ => true

/-- Model of `LoRaWANStack._check_channel_availability` (lines 150-173): its
first statement evaluates `self.radio.can_transmit_aggregated`, raising
`AttributeError` when the attribute does not exist.  The aggregated
check and the per-channel `can_transmit` scan that would follow depend
on wall-clock state and are abstracted by `rest`, consulted only when
the attribute lookup succeeds. -/
def check_channel_availability (rest : Unit → Bool × Option ℚ) :
    PyResult (Bool × Option ℚ) :=
  if radioPHY_defined .can_transmit_aggregated then .ok (rest ())
  else .error .attributeError

/-- The build dispatch of `_send` (lines 78-94): a non-empty pending MAC
response of at most 15 bytes rides in FOpts; a longer one is sent alone
as a port-0 frame (the application payload is skipped this cycle);
otherwise (no pending bytes, which is also where Python's falsy `b''`
lands) a plain application uplink is built. -/
def send_build (aes cmac : List Nat → List Nat → List Nat)
    (devaddr nwk app : List Nat) (frame_counter : Nat)
    (pending : Option (List Nat)) (app_payload : List Nat) (fport : Nat)
    (confirmed : Bool) : Option (List Nat) :=
  match pending with
  | some (x :: p) =>
    if (x :: p).length ≤ 15 then
      build_uplink_frame aes cmac devaddr nwk app frame_counter app_payload
        fport confirmed (x :: p)
    else
      build_uplink_frame aes cmac devaddr nwk app frame_counter (x :: p) 0
        false []
  | _ =>
    build_uplink_frame aes cmac devaddr nwk app frame_counter app_payload
      fport confirmed []

/-- Model of `safe_send` → `_send` → `_send_nb_transmissions` up to the first
frame hand-off (the per-device lock only serializes; it is not
modelled).  The frame is built, then for transmission 1 of attempt 1
(the nb_trans loop runs at least once: `self.radio.nb_trans or 1 ≥ 1`)
the `while True` body starts with `_check_channel_availability`.
Everything that can follow that call — duty-cycle waits, envelope
construction, the channel simulator and the gateway hand-off
`self.uplink_interface(envelope)` — is reached only through the
continuation `k`, which receives the availability result and returns
the frames handed to the gateway. -/
def safe_send_model (aes cmac : List Nat → List Nat → List Nat)
    (devaddr nwk app : List Nat) (frame_counter : Nat)
    (pending : Option (List Nat)) (app_payload : List Nat) (fport : Nat)
    (confirmed : Bool) (rest : Unit → Bool × Option ℚ)
    (k : Bool × Option ℚ → PyResult (List (List Nat))) :
    PyResult (List (List Nat)) :=
  match send_build aes cmac devaddr nwk app frame_counter pending
      app_payload fport confirmed with
  | none => .error .buildError
  | some _ =>
    match check_channel_availability rest with
    | .error e => .error e
    | .ok r => k r

/-- C1: every `safe_send` invocation whose frame build succeeds raises
`AttributeError` at `self.radio.can_transmit_aggregated` inside
`_check_channel_availability`, before any frame is handed to the
gateway: the result is the error for every continuation `k`, so the
code after the channel check (including `self.uplink_interface`) never
runs. -/
theorem safe_send_always_attribute_error
    (aes cmac : List Nat → List Nat → List Nat) (devaddr nwk app : List Nat)
    (fcnt : Nat) (pending : Option (List Nat)) (app_payload : List Nat)
    (fport : Nat) (confirmed : Bool) (rest : Unit → Bool × Option ℚ)
    (k : Bool × Option ℚ → PyResult (List (List Nat)))
    (haes : ∀ key b, (aes key b).length = 16)
    (hcmac : ∀ key m, (cmac key m).length = 16)
    (hda : devaddr.length = 4) (hf : fcnt < 65536) (hfp : fport < 256)
    (hpl : app_payload.length ≤ 231)
    (hpend : ∀ p, pending = some p → p.length ≤ 246) :
    safe_send_model aes cmac devaddr nwk app fcnt pending app_payload fport
      confirmed rest k = .error .attributeError := by
  have hbuild : ∃ u, send_build aes cmac devaddr nwk app fcnt pending
      app_payload fport confirmed = some u := by
    cases pending with
    | none =>
      obtain ⟨P, hP, -, -⟩ := build_uplink_frame_total aes cmac devaddr nwk
        app fcnt app_payload fport confirmed [] (fun b => haes _ b) hcmac hda
        hf hfp (by simp) (by simp; omega)
      exact ⟨P, hP⟩
    | some p =>
      cases p with
      | nil =>
        obtain ⟨P, hP, -, -⟩ := build_uplink_frame_total aes cmac devaddr nwk
          app fcnt app_payload fport confirmed [] (fun b => haes _ b) hcmac
          hda hf hfp (by simp) (by simp; omega)
        exact ⟨P, hP⟩
      | cons x t =>
        have hp246 : (x :: t).length ≤ 246 := hpend (x :: t) rfl
        by_cases hle : (x :: t).length ≤ 15
        · obtain ⟨P, hP, -, -⟩ := build_uplink_frame_total aes cmac devaddr
            nwk app fcnt app_payload fport confirmed (x :: t)
            (fun b => haes _ b) hcmac hda hf hfp hle (by omega)
          refine ⟨P, ?_⟩
          simp only [send_build, if_pos hle]
          exact hP
        · have hp246a : t.length + 1 ≤ 246 := by simpa using hp246
          obtain ⟨P, hP, -, -⟩ := build_uplink_frame_total aes cmac devaddr
            nwk app fcnt (x :: t) 0 false [] (fun b => haes _ b) hcmac hda hf
            (by omega) (by simp) (by simp; omega)
          refine ⟨P, ?_⟩
          simp only [send_build, if_neg hle]
          exact hP
  obtain ⟨u, hu⟩ := hbuild
  unfold safe_send_model
  simp only [hu]
  rfl

/-- C1 witness: a concrete `safe_send` of the spec's example payload
returns `AttributeError` even for a continuation that would hand frames
to the gateway. -/
theorem safe_send_always_attribute_error_witness :
    safe_send_model aesZero cmacZero devAddrEx [] [] 0 none [1, 100] 1 false
      (fun _ => (true, none)) (fun _ => .ok [[0]]) =
      .error .attributeError :=
  safe_send_always_attribute_error aesZero cmacZero devAddrEx [] [] 0 none
    [1, 100] 1 false (fun _ => (true, none)) (fun _ => .ok [[0]])
    (fun _ _ => rfl) (fun _ _ => rfl) (by decide) (by decide) (by decide)
    (by decide) (fun p h => by cases h)

/-- Outcomes of `_receive_downlink_message` up to the RX-window logic. -/
inductive ReceiveOutcome where
  | tooShort
  | addrMismatch
  | dropped
  | window
  deriving DecidableEq

/-- Model of `LoRaWANStack._receive_downlink_message` (lines 236-273): frames
shorter than 5 bytes and frames whose little-endian DevAddr (bytes 1-4)
is another device's return early; the channel simulator's probabilistic
verdict is the parameter `simDrop`; a surviving frame then evaluates
`self.radio.get_rx1_datarate` (line 253) — an `AttributeError` on
`radio_phy.RadioPHY` — before any RX1/RX2 window or frequency check.
The window checks and `_process_downlink` sit behind `k`.  (The source
compares DevAddr as uppercase hex strings; byte-list equality is
equivalent.) -/
def receive_downlink_message (dev_addr payload : List Nat) (simDrop : Bool)
    (k : Unit → PyResult ReceiveOutcome) : PyResult ReceiveOutcome :=
  if payload.length < 5 then .ok .tooShort
  else if ((payload.drop 1).take 4).reverse ≠ dev_addr then .ok .addrMismatch
  else if simDrop then .ok .dropped
  else if radioPHY_defined .get_rx1_datarate then k ()
  else .error .attributeError

/-- C2: every downlink envelope whose DevAddr matches the device and
which survives the channel simulator raises `AttributeError` at
`self.radio.get_rx1_datarate` before any RX-window check: the result is
the error for every continuation `k`, so no downlink is ever accepted
or processed. -/
theorem receive_downlink_always_attribute_error
    (dev_addr payload : List Nat) (k : Unit → PyResult ReceiveOutcome)
    (h5 : 5 ≤ payload.length)
    (haddr : ((payload.drop 1).take 4).reverse = dev_addr) :
    receive_downlink_message dev_addr payload false k =
      .error .attributeError := by
  unfold receive_downlink_message
  rw [if_neg (by omega), if_neg (fun hne => hne haddr), if_neg (by simp)]
  rfl

/-- C2 witness: a concrete matching downlink for the example device is
rejected with `AttributeError` even for a continuation that would
accept it. -/
theorem receive_downlink_always_attribute_error_witness :
    receive_downlink_message devAddrEx
      [0x60, 0xDA, 0x1B, 0x01, 0x26, 0, 0, 0] false
      (fun _ => .ok .window) = .error .attributeError :=
  receive_downlink_always_attribute_error devAddrEx
    [0x60, 0xDA, 0x1B, 0x01, 0x26, 0, 0, 0] (fun _ => .ok .window)
    (by decide) (by decide)

/-- What the `for ack_attempt in range(max_ack_attempts)` loop of
`_send` did: how many attempts ran, which PHYPayload bytes each attempt
passed to `_send_nb_transmissions`, and the `(ack_attempt + 1)` factors
of the back-off sleeps `random.uniform(*retry_backoff_range) * (i+1)`
that were executed. -/
structure SendRun where
  attempts : Nat
  sent : List (List Nat)
  backoffFactors : List Nat
  deriving DecidableEq

/-- The confirmed-uplink retry loop of `_send` (lines 101-111) with the
radio subroutine and the ACK event abstracted by oracles:
`ackAfterSend i` is `self.ack_event.is_set()` when attempt `i` returns
from `_send_nb_transmissions`; `ackInWait i` tells whether the
`asyncio.wait_for` inside `_handle_ack_timeout_and_backoff` sees the
event before its timeout (then no back-off sleep runs).  The loop body
never rebuilds the frame: the same `uplink` bytes are passed to every
attempt. -/
def sendLoop (ackAfterSend ackInWait : Nat → Bool) (uplink : List Nat) :
    Nat → Nat → SendRun
  | 0, _ => ⟨0, [], []⟩
  | rem + 1, i =>
    if ackAfterSend i then
      ⟨1, [uplink], []⟩
    else
      let rest := sendLoop ackAfterSend ackInWait uplink rem (i + 1)
      ⟨rest.attempts + 1, uplink :: rest.sent,
        (if ackInWait i then [] else [i + 1]) ++ rest.backoffFactors⟩

/-- Model of `_send` for a confirmed uplink (lines 65-115): the PHYPayload is
built once, before the retry loop, and the frame counter advances
exactly once, inside that single `build_uplink_frame` call; the loop
then retransmits the same bytes up to `max_ack_retries` attempts.
Returns the frame counter after the call, the built bytes, and the
loop record; `none` when the build raises. -/
def send_confirmed_model (aes cmac : List Nat → List Nat → List Nat)
    (devaddr nwk app : List Nat) (frame_counter : Nat)
    (pending : Option (List Nat)) (app_payload : List Nat) (fport : Nat)
    (maxAckRetries : Nat) (ackAfterSend ackInWait : Nat → Bool) :
    Option (Nat × List Nat × SendRun) :=
  match send_build aes cmac devaddr nwk app frame_counter pending
      app_payload fport true with
  | none => none
  | some uplink_bytes =>
    some (frame_counter + 1, uplink_bytes,
      sendLoop ackAfterSend ackInWait uplink_bytes maxAckRetries 0)

/-- The build dispatch succeeds whenever the embedded primitives do not
raise. -/
theorem send_build_total (aes cmac : List Nat → List Nat → List Nat)
    (devaddr nwk app : List Nat) (fcnt : Nat) (pending : Option (List Nat))
    (app_payload : List Nat) (fport : Nat) (confirmed : Bool)
    (haes : ∀ key b, (aes key b).length = 16)
    (hcmac : ∀ key m, (cmac key m).length = 16)
    (hda : devaddr.length = 4) (hf : fcnt < 65536) (hfp : fport < 256)
    (hpl : app_payload.length ≤ 231)
    (hpend : ∀ p, pending = some p → p.length ≤ 246) :
    ∃ u, send_build aes cmac devaddr nwk app fcnt pending app_payload fport
      confirmed = some u := by
  cases pending with
  | none =>
    obtain ⟨P, hP, -, -⟩ := build_uplink_frame_total aes cmac devaddr nwk
      app fcnt app_payload fport confirmed [] (fun b => haes _ b) hcmac hda
      hf hfp (by simp) (by simp; omega)
    exact ⟨P, hP⟩
  | some p =>
    cases p with
    | nil =>
      obtain ⟨P, hP, -, -⟩ := build_uplink_frame_total aes cmac devaddr nwk
        app fcnt app_payload fport confirmed [] (fun b => haes _ b) hcmac
        hda hf hfp (by simp) (by simp; omega)
      exact ⟨P, hP⟩
    | cons x t =>
      have hp246 : (x :: t).length ≤ 246 := hpend (x :: t) rfl
      by_cases hle : (x :: t).length ≤ 15
      · obtain ⟨P, hP, -, -⟩ := build_uplink_frame_total aes cmac devaddr
          nwk app fcnt app_payload fport confirmed (x :: t)
          (fun b => haes _ b) hcmac hda hf hfp hle (by omega)
        refine ⟨P, ?_⟩
        simp only [send_build, if_pos hle]
        exact hP
      · have hp246a : t.length + 1 ≤ 246 := by simpa using hp246
        obtain ⟨P, hP, -, -⟩ := build_uplink_frame_total aes cmac devaddr
          nwk app fcnt (x :: t) 0 false [] (fun b => haes _ b) hcmac hda hf
          (by omega) (by simp) (by simp; omega)
        refine ⟨P, ?_⟩
        simp only [send_build, if_neg hle]
        exact hP

/-- The retry loop runs at most `rem` attempts. -/
theorem sendLoop_attempts_le (a w : Nat → Bool) (up : List Nat) :
    ∀ rem i, (sendLoop a w up rem i).attempts ≤ rem := by
  intro rem
  induction rem with
  | zero => intro i; simp [sendLoop]
  | succ rem ih =>
    intro i
    by_cases h : a i
    · simp [sendLoop, h]
    · simp only [sendLoop, h, if_false, Bool.false_eq_true]
      have := ih (i + 1)
      omega

/-- Every attempt transmits the same bytes. -/
theorem sendLoop_sent_constant (a w : Nat → Bool) (up : List Nat) :
    ∀ rem i s, s ∈ (sendLoop a w up rem i).sent → s = up := by
  intro rem
  induction rem with
  | zero => intro i s hs; simp [sendLoop] at hs
  | succ rem ih =>
    intro i s hs
    by_cases h : a i
    · simp [sendLoop, h] at hs
      exact hs
    · simp only [sendLoop, h, if_false, Bool.false_eq_true,
        List.mem_cons] at hs
      rcases hs with rfl | hs
      · rfl
      · exact ih (i + 1) s hs

/-- With no ACK ever, the loop exhausts all attempts and backs off with
the factors `i+1, i+2, …` — one factor per failed attempt. -/
theorem sendLoop_noack (a w : Nat → Bool) (up : List Nat)
    (hnone : ∀ j, a j = false ∧ w j = false) :
    ∀ rem i, (sendLoop a w up rem i).attempts = rem ∧
      (sendLoop a w up rem i).backoffFactors =
        (List.range rem).map (fun j => i + j + 1) := by
  intro rem
  induction rem with
  | zero => intro i; exact ⟨rfl, rfl⟩
  | succ rem ih =>
    intro i
    have ha : a i = false := (hnone i).1
    have hw : w i = false := (hnone i).2
    constructor
    · simp only [sendLoop, ha, if_false, Bool.false_eq_true]
      rw [(ih (i + 1)).1]
    · simp only [sendLoop, ha, hw, if_false, Bool.false_eq_true,
        List.nil_append, List.singleton_append]
      rw [(ih (i + 1)).2, List.range_succ_eq_map, List.map_cons,
        List.map_map]
      congr 1
      refine List.map_congr_left (fun j _ => ?_)
      simp only [Function.comp_apply]
      omega

/-- C9 (amended): when a confirmed send gets no ACK, the device backs
off `Uniform(retry_backoff_range) · (attempt + 1)` seconds after each
failed attempt and repeats only the transmission loop on the *same*
PHYPayload, up to `max_ack_retries` attempts: the frame is built once,
before the loop, and the frame counter advances once per `_send` call,
not once per attempt. -/
theorem send_confirmed_single_build
    (aes cmac : List Nat → List Nat → List Nat) (devaddr nwk app : List Nat)
    (fcnt : Nat) (pending : Option (List Nat)) (app_payload : List Nat)
    (fport maxR : Nat) (a w : Nat → Bool)
    (haes : ∀ key b, (aes key b).length = 16)
    (hcmac : ∀ key m, (cmac key m).length = 16)
    (hda : devaddr.length = 4) (hf : fcnt < 65536) (hfp : fport < 256)
    (hpl : app_payload.length ≤ 231)
    (hpend : ∀ p, pending = some p → p.length ≤ 246) :
    ∃ up, send_confirmed_model aes cmac devaddr nwk app fcnt pending
        app_payload fport maxR a w =
        some (fcnt + 1, up, sendLoop a w up maxR 0) ∧
      (sendLoop a w up maxR 0).attempts ≤ maxR ∧
      (∀ s ∈ (sendLoop a w up maxR 0).sent, s = up) ∧
      ((∀ j, a j = false ∧ w j = false) →
        (sendLoop a w up maxR 0).attempts = maxR ∧
        (sendLoop a w up maxR 0).backoffFactors =
          (List.range maxR).map (fun j => j + 1)) := by
  obtain ⟨u, hu⟩ := send_build_total aes cmac devaddr nwk app fcnt pending
    app_payload fport true haes hcmac hda hf hfp hpl hpend
  refine ⟨u, ?_, sendLoop_attempts_le a w u maxR 0,
    fun s hs => sendLoop_sent_constant a w u maxR 0 s hs, fun hnone => ?_⟩
  · unfold send_confirmed_model
    rw [hu]
  · refine ⟨(sendLoop_noack a w u hnone maxR 0).1, ?_⟩
    rw [(sendLoop_noack a w u hnone maxR 0).2]
    exact List.map_congr_left (fun j _ => by omega)

/-- C9 witness: with the example device, no pending MAC response and
oracles that never report an ACK, the amended theorem yields the single
build, the constant retransmissions, all 8 attempts and the back-off
factors 1..8. -/
theorem send_confirmed_single_build_witness :
    ∃ up, send_confirmed_model aesZero cmacZero devAddrEx [] [] 0 none
        [1, 100] 1 8 (fun _ : Nat => false) (fun _ : Nat => false) =
        some (0 + 1, up, sendLoop (fun _ : Nat => false) (fun _ : Nat => false) up 8 0) ∧
      (sendLoop (fun _ : Nat => false) (fun _ : Nat => false) up 8 0).attempts ≤ 8 ∧
      (∀ s ∈ (sendLoop (fun _ : Nat => false) (fun _ : Nat => false) up 8 0).sent,
        s = up) ∧
      ((∀ j, (fun _ : Nat => false) j = false ∧ (fun _ : Nat => false) j = false) →
        (sendLoop (fun _ : Nat => false) (fun _ : Nat => false) up 8 0).attempts = 8 ∧
        (sendLoop (fun _ : Nat => false) (fun _ : Nat => false) up 8 0).backoffFactors =
          (List.range 8).map (fun j => j + 1)) :=
  send_confirmed_single_build aesZero cmacZero devAddrEx [] [] 0 none
    [1, 100] 1 8 (fun _ : Nat => false) (fun _ : Nat => false) (fun _ _ => rfl)
    (fun _ _ => rfl) (by decide) (by decide) (by decide) (by decide)
    (fun p h => by cases h)

/-- C9 counterexample: a confirmed send of `0x0164` with
`max_ack_retries = 3` and no ACK runs 3 attempts but builds exactly one
PHYPayload — all three attempts transmit identical bytes and the frame
counter advances from 0 to 1, not to 3 as one-build-per-attempt would
give. -/
theorem send_confirmed_rebuild_counterexample :
    send_confirmed_model aesZero cmacZero devAddrEx [] [] 0 none [1, 100] 1
      3 (fun _ => false) (fun _ => false) =
      some (1, [128, 218, 27, 1, 38, 0, 0, 0, 1, 1, 100, 0, 0, 0, 0],
        ⟨3, [[128, 218, 27, 1, 38, 0, 0, 0, 1, 1, 100, 0, 0, 0, 0],
             [128, 218, 27, 1, 38, 0, 0, 0, 1, 1, 100, 0, 0, 0, 0],
             [128, 218, 27, 1, 38, 0, 0, 0, 1, 1, 100, 0, 0, 0, 0]],
          [1, 2, 3]⟩) ∧
    (1 : Nat) ≠ 0 + 3 := by decide

/-- Dropping an 8-byte prefix plus `k` more elements. -/
theorem drop_cons8 (x0 x1 x2 x3 x4 x5 x6 x7 : Nat) (l : List Nat) (k : Nat) :
    (x0 :: x1 :: x2 :: x3 :: x4 :: x5 :: x6 :: x7 :: l).drop (8 + k) =
      l.drop k := by
  rw [Nat.add_comm]
  rfl

/-- Reading the element just past an 8-byte prefix plus `k` more. -/
theorem getD_cons8 (x0 x1 x2 x3 x4 x5 x6 x7 : Nat) (l : List Nat)
    (k d : Nat) :
    (x0 :: x1 :: x2 :: x3 :: x4 :: x5 :: x6 :: x7 :: l).getD (8 + k) d =
      l.getD k d := by
  rw [Nat.add_comm]
  rfl

/-- Reading the first element after a prefix. -/
theorem getD_append_self (l1 l2 : List Nat) (d : Nat) :
    (l1 ++ l2).getD l1.length d = l2.getD 0 d := by
  rw [List.getD_eq_getElem?_getD, List.getD_eq_getElem?_getD,
    List.getElem?_append_right (le_refl _)]
  simp

/-- Dropping a whole prefix plus `k` more elements. -/
theorem drop_append_plus (l1 l2 : List Nat) (k : Nat) :
    (l1 ++ l2).drop (l1.length + k) = l2.drop k := by
  rw [List.drop_append_eq_append_drop, List.drop_eq_nil_of_le (by omega),
    List.nil_append]
  have h : l1.length + k - l1.length = k := by omega
  rw [h]

/-- The low nibble of the FCtrl byte `ack·0x20 + fopts_len` is
`fopts_len` when `fopts_len ≤ 15`. -/
theorem fctrl_and_15 (ack : Bool) (L : Nat) (hL : L ≤ 15) :
    ((if ack then 32 else 0) + L) &&& 15 = L := by
  cases ack <;> interval_cases L <;> decide

/-- Bit 5 of the FCtrl byte `ack·0x20 + fopts_len` is the ACK flag when
`fopts_len ≤ 15`. -/
theorem fctrl_and_32 (ack : Bool) (L : Nat) (hL : L ≤ 15) :
    ((((if ack then 32 else 0) + L) &&& 32) != 0) = ack := by
  cases ack <;> interval_cases L <;> decide

/-- Model of `int.from_bytes(·, 'little')` on a 2-byte slice. -/
def fromLE2 (l : List Nat) : Nat :=
  l.getD 0 0 + 256 * l.getD 1 0

/-- The `(CID, payload)` answer the `MACCommandHandler` registry appends
to `pending_mac_responses` when applying one command (`mac_commands.py`
lines 140-209), or the exception it raises.  LinkADR, RXParamSetup and
NewChannel answer status `0b111`; RXTimingSetup answers with no payload;
DevStatus answers `[battery, margin]`; DutyCycle raises
`AttributeError` because its handler calls the missing
`radio.set_max_duty_cycle` before queueing; a CID without a handler
(LinkCheckReq 0x02 and unknown CIDs) only logs.  The handlers' radio
side effects do not influence the queued bytes, except `last_snr` read
by DevStatus. -/
def apply_mac_command (battery : Nat) (last_snr : Option ℚ)
    (cmd : MacCommand) : PyResult (List (Nat × List Nat)) :=
  match cmd.cid with
  | 0x03 => .ok [(0x03, [0b111])]
  | 0x04 => .error .attributeError
  | 0x05 => .ok [(0x05, [0b111])]
  | 0x06 => .ok [(0x06, devStatusAns battery last_snr)]
  | 0x07 => .ok [(0x07, [0b111])]
  | 0x08 => .ok [(0x08, [])]
  | _ => .ok []

/-- Applying a list of commands in order, stopping at the first raised
exception (which propagates out of `_process_downlink`). -/
def apply_mac_commands (battery : Nat) (last_snr : Option ℚ) :
    List MacCommand → PyResult (List (Nat × List Nat))
  | [] => .ok []
  | c :: cs =>
    match apply_mac_command battery last_snr c with
    | .error e => .error e
    | .ok r =>
      match apply_mac_commands battery last_snr cs with
      | .error e => .error e
      | .ok rs => .ok (r ++ rs)

/-- Model of `MACCommandHandler.get_mac_response_payload`: concatenate
`CID ‖ payload` for every pending response (the queue is cleared by the
caller's state update). -/
def get_mac_response_payload (q : List (Nat × List Nat)) : List Nat :=
  (q.map (fun cp => cp.1 :: cp.2)).flatten

/-- The observable outcome of one `_process_downlink` call: the return
value, the MAC commands applied from FOpts and from a port-0
FRMPayload, whether the ACK event was set, what was handed to an
application downlink hook (the source hands over nothing — it only
logs), the device's `pending_mac_response_bytes` afterwards, and what
is left in the handler's `pending_mac_responses` queue. -/
structure DownlinkResult where
  handled : Bool
  foptsCmds : List MacCommand
  port0Cmds : List MacCommand
  ackSet : Bool
  appDelivered : Option (List Nat)
  pending_mac_response_bytes : Option (List Nat)
  handlerQueue : List (Nat × List Nat)
  deriving DecidableEq

/-- Model of `LoRaWANStack._process_downlink` (lines 275-343).  Checks MType and
DevAddr; parses FCtrl/FOpts/FCnt; applies FOpts MAC commands; sets the
ACK event when `waiting_for_ack` and the FCtrl ACK bit agree; then: no
FPort present — drain responses; `FPort == 0` — decrypt the FRMPayload
under NwkSKey (`decrypt_downlink_payload` with `is_nwk=True`,
direction 1), apply the parsed commands and drain; `FPort ≥ 1` — only
log the payload (no application hook is invoked and nothing is
drained).  `if mac_response:` means an all-empty response (`b''`) does
not overwrite `pending_mac_response_bytes`.  (DevAddr is compared as
uppercase hex in the source; byte-list equality is equivalent.) -/
def process_downlink (aes : List Nat → List Nat → List Nat)
    (dev_addr nwk_skey : List Nat) (waiting_for_ack : Bool)
    (prevPending : Option (List Nat)) (queue0 : List (Nat × List Nat))
    (battery : Nat) (last_snr : Option ℚ) (raw_bytes : List Nat) :
    PyResult DownlinkResult :=
  match raw_bytes with
  | [] => .error .indexError
  | b0 :: _ =>
    if b0 >>> 5 ≠ 3 ∧ b0 >>> 5 ≠ 5 then
      .ok ⟨false, [], [], false, none, prevPending, queue0⟩
    else if ((raw_bytes.drop 1).take 4).reverse ≠ dev_addr then
      .ok ⟨false, [], [], false, none, prevPending, queue0⟩
    else
      match raw_bytes with
      | _ :: _ :: _ :: _ :: _ :: fctrl :: tail =>
        let fopts_len := fctrl &&& 0x0F
        let fcnt := fromLE2 (tail.take 2)
        let fopts := (tail.drop 2).take fopts_len
        match apply_mac_commands battery last_snr
            (parse_mac_commands fopts) with
        | .error e => .error e
        | .ok q1 =>
          let queue1 := queue0 ++ q1
          let ackSet := waiting_for_ack && ((fctrl &&& 0x20) != 0)
          let fport_index := 8 + fopts_len
          if raw_bytes.length - 4 ≤ fport_index then
            let resp := get_mac_response_payload queue1
            .ok ⟨true, parse_mac_commands fopts, [], ackSet, none,
              if resp ≠ [] then some resp else prevPending, []⟩
          else
            let fport := raw_bytes.getD fport_index 0
            let frmpayload :=
              (raw_bytes.take (raw_bytes.length - 4)).drop (fport_index + 1)
            if fport = 0 then
              match encrypt_payload aes frmpayload nwk_skey dev_addr fcnt 1
                  with
              | none => .error .buildError
              | some decrypted =>
                match apply_mac_commands battery last_snr
                    (parse_mac_commands decrypted) with
                | .error e => .error e
                | .ok q2 =>
                  let resp := get_mac_response_payload (queue1 ++ q2)
                  .ok ⟨true, parse_mac_commands fopts,
                    parse_mac_commands decrypted, ackSet, none,
                    if resp ≠ [] then some resp else prevPending, []⟩
            else
              .ok ⟨true, parse_mac_commands fopts, [], ackSet, none,
                prevPending, queue1⟩
      | _ => .error .indexError

/-- A well-formed downlink data frame:
`MHDR 0x60 ‖ DevAddr[::-1] ‖ FCtrl ‖ FCnt(2) ‖ FOpts ‖ FPort ‖ FRM ‖ MIC`
with `FCtrl = ack·0x20 + len(FOpts)`. -/
def downlink_frame (devaddr : List Nat) (ackBit : Bool) (fopts : List Nat)
    (f0 f1 fport : Nat) (frm mic : List Nat) : List Nat :=
  0x60 :: devaddr.reverse ++ [(if ackBit then 32 else 0) + fopts.length] ++
    [f0, f1] ++ fopts ++ [fport] ++ frm ++ mic

theorem process_downlink_fport_pos
    (aes : List Nat → List Nat → List Nat) (devaddr nwk : List Nat)
    (waiting : Bool) (prevPending : Option (List Nat))
    (queue0 : List (Nat × List Nat)) (battery : Nat) (last_snr : Option ℚ)
    (ackBit : Bool) (fopts : List Nat) (f0 f1 fport : Nat)
    (frm mic : List Nat) (q1 : List (Nat × List Nat))
    (hda : devaddr.length = 4) (hfo : fopts.length ≤ 15)
    (hmic : mic.length = 4) (hfp : fport ≠ 0)
    (hq1 : apply_mac_commands battery last_snr (parse_mac_commands fopts) =
      .ok q1) :
    process_downlink aes devaddr nwk waiting prevPending queue0 battery
        last_snr (downlink_frame devaddr ackBit fopts f0 f1 fport frm mic) =
      .ok ⟨true, parse_mac_commands fopts, [], waiting && ackBit, none,
        prevPending, queue0 ++ q1⟩ := by
  obtain ⟨a, b, c, d, rfl⟩ := list_length_eq_four hda
  have h15 := fctrl_and_15 ackBit fopts.length hfo
  have h32 := fctrl_and_32 ackBit fopts.length hfo
  unfold downlink_frame process_downlink
  simp only [List.reverse_cons, List.reverse_nil, List.nil_append,
    List.cons_append, List.append_assoc, List.drop_succ_cons,
    List.drop_zero, List.take_succ_cons, List.take_zero]
  rw [if_neg (by decide : ¬ ((96 : Nat) >>> 5 ≠ 3 ∧ (96 : Nat) >>> 5 ≠ 5))]
  rw [if_neg (by simp : ¬ ([a, b, c, d] ≠ [a, b, c, d]))]
  simp only [h15, List.take_left, hq1, h32]
  have hlen : ¬ (96 :: d :: c :: b :: a ::
      ((if ackBit = true then 32 else 0) + fopts.length) ::
      f0 :: f1 :: (fopts ++ fport :: (frm ++ mic))).length - 4 ≤
      8 + fopts.length := by
    simp only [List.length_cons, List.length_append, hmic]
    omega
  rw [if_neg hlen]
  rw [getD_cons8, getD_append_self]
  simp only [List.getD_cons_zero]
  rw [if_neg hfp]

theorem process_downlink_fport_zero
    (aes : List Nat → List Nat → List Nat) (devaddr nwk : List Nat)
    (waiting : Bool) (prevPending : Option (List Nat))
    (queue0 : List (Nat × List Nat)) (battery : Nat) (last_snr : Option ℚ)
    (ackBit : Bool) (fopts : List Nat) (f0 f1 : Nat) (frm mic : List Nat)
    (q1 : List (Nat × List Nat)) (dec : List Nat)
    (q2 : List (Nat × List Nat))
    (hda : devaddr.length = 4) (hfo : fopts.length ≤ 15)
    (hmic : mic.length = 4)
    (hq1 : apply_mac_commands battery last_snr (parse_mac_commands fopts) =
      .ok q1)
    (hdec : encrypt_payload aes frm nwk devaddr (f0 + 256 * f1) 1 =
      some dec)
    (hq2 : apply_mac_commands battery last_snr (parse_mac_commands dec) =
      .ok q2) :
    process_downlink aes devaddr nwk waiting prevPending queue0 battery
        last_snr (downlink_frame devaddr ackBit fopts f0 f1 0 frm mic) =
      .ok ⟨true, parse_mac_commands fopts, parse_mac_commands dec,
        waiting && ackBit, none,
        if get_mac_response_payload (queue0 ++ (q1 ++ q2)) ≠ [] then
          some (get_mac_response_payload (queue0 ++ (q1 ++ q2)))
        else prevPending, []⟩ := by
  obtain ⟨a, b, c, d, rfl⟩ := list_length_eq_four hda
  have h15 := fctrl_and_15 ackBit fopts.length hfo
  have h32 := fctrl_and_32 ackBit fopts.length hfo
  unfold downlink_frame process_downlink
  simp only [List.reverse_cons, List.reverse_nil, List.nil_append,
    List.cons_append, List.append_assoc, List.drop_succ_cons,
    List.drop_zero, List.take_succ_cons, List.take_zero]
  rw [if_neg (by decide : ¬ ((96 : Nat) >>> 5 ≠ 3 ∧ (96 : Nat) >>> 5 ≠ 5))]
  rw [if_neg (by simp : ¬ ([a, b, c, d] ≠ [a, b, c, d]))]
  simp only [h15, List.take_left, hq1, h32]
  have hlen : ¬ (96 :: d :: c :: b :: a ::
      ((if ackBit = true then 32 else 0) + fopts.length) ::
      f0 :: f1 :: (fopts ++ 0 :: (frm ++ mic))).length - 4 ≤
      8 + fopts.length := by
    simp only [List.length_cons, List.length_append, hmic]
    omega
  rw [if_neg hlen]
  rw [getD_cons8, getD_append_self]
  simp only [List.getD_cons_zero, if_true]
  have hcnt : fromLE2 [f0, f1] = f0 + 256 * f1 := by
    simp [fromLE2, List.getD]
  have e1 : (8 : Nat) + fopts.length + 1 = 8 + (fopts.length + 1) := by
    omega
  have e2 : (96 :: d :: c :: b :: a ::
      ((if ackBit = true then 32 else 0) + fopts.length) ::
      f0 :: f1 :: (fopts ++ 0 :: (frm ++ mic))).length - 4 -
      (8 + (fopts.length + 1)) = frm.length := by
    simp only [List.length_cons, List.length_append, hmic]
    omega
  rw [List.drop_take, e1, drop_cons8, drop_append_plus, e2]
  simp only [List.drop_succ_cons, List.drop_zero, List.take_left]
  rw [hcnt, hdec]
  simp only [hq2]

/-- C10 (amended): for a processed downlink carrying an FPort: when
`FPort = 0` the FRMPayload is decrypted under NwkSKey, applied as MAC
commands, and the accumulated MAC responses are drained into
`pending_mac_response_bytes` (left untouched when the drained bytes are
empty); but when `FPort ≥ 1` the FRMPayload is only logged — it is not
delivered to any application hook — and the accumulated responses stay
undrained in the handler queue, leaving `pending_mac_response_bytes`
unchanged. -/
theorem process_downlink_fport_branches :
    (∀ aes devaddr nwk waiting prevPending queue0 battery last_snr ackBit
        fopts f0 f1 fport frm mic q1,
      devaddr.length = 4 → fopts.length ≤ 15 → mic.length = 4 →
      fport ≠ 0 →
      apply_mac_commands battery last_snr (parse_mac_commands fopts) =
        .ok q1 →
      process_downlink aes devaddr nwk waiting prevPending queue0 battery
          last_snr
          (downlink_frame devaddr ackBit fopts f0 f1 fport frm mic) =
        .ok ⟨true, parse_mac_commands fopts, [], waiting && ackBit, none,
          prevPending, queue0 ++ q1⟩) ∧
    (∀ aes devaddr nwk waiting prevPending queue0 battery last_snr ackBit
        fopts f0 f1 frm mic q1 dec q2,
      devaddr.length = 4 → fopts.length ≤ 15 → mic.length = 4 →
      apply_mac_commands battery last_snr (parse_mac_commands fopts) =
        .ok q1 →
      encrypt_payload aes frm nwk devaddr (f0 + 256 * f1) 1 = some dec →
      apply_mac_commands battery last_snr (parse_mac_commands dec) =
        .ok q2 →
      process_downlink aes devaddr nwk waiting prevPending queue0 battery
          last_snr (downlink_frame devaddr ackBit fopts f0 f1 0 frm mic) =
        .ok ⟨true, parse_mac_commands fopts, parse_mac_commands dec,
          waiting && ackBit, none,
          if get_mac_response_payload (queue0 ++ (q1 ++ q2)) ≠ [] then
            some (get_mac_response_payload (queue0 ++ (q1 ++ q2)))
          else prevPending, []⟩) :=
  ⟨fun aes devaddr nwk waiting prevPending queue0 battery last_snr ackBit
      fopts f0 f1 fport frm mic q1 hda hfo hmic hfp hq1 =>
    process_downlink_fport_pos aes devaddr nwk waiting prevPending queue0
      battery last_snr ackBit fopts f0 f1 fport frm mic q1 hda hfo hmic hfp
      hq1,
   fun aes devaddr nwk waiting prevPending queue0 battery last_snr ackBit
      fopts f0 f1 frm mic q1 dec q2 hda hfo hmic hq1 hdec hq2 =>
    process_downlink_fport_zero aes devaddr nwk waiting prevPending queue0
      battery last_snr ackBit fopts f0 f1 frm mic q1 dec q2 hda hfo hmic
      hq1 hdec hq2⟩

/-- C10 witness: a concrete downlink with an RXTimingSetupReq in FOpts
and FPort 1 leaves the queued RXTimingSetupAns undrained and delivers
nothing; the same frame on FPort 0 with an empty FRMPayload drains the
answer into `pending_mac_response_bytes`. -/
theorem process_downlink_fport_branches_witness :
    process_downlink aesZero devAddrEx [] false none [] 255 none
        (downlink_frame devAddrEx false [0x08, 0x01] 0 0 1 [0xAB]
          [0, 0, 0, 0]) =
      .ok ⟨true, parse_mac_commands [0x08, 0x01], [], false && false, none,
        none, [] ++ [(0x08, [])]⟩ ∧
    process_downlink aesZero devAddrEx [] false none [] 255 none
        (downlink_frame devAddrEx false [0x08, 0x01] 0 0 0 [] [0, 0, 0, 0]) =
      .ok ⟨true, parse_mac_commands [0x08, 0x01], parse_mac_commands [],
        false && false, none,
        if get_mac_response_payload ([] ++ ([(0x08, [])] ++ [])) ≠ [] then
          some (get_mac_response_payload ([] ++ ([(0x08, [])] ++ [])))
        else none, []⟩ :=
  ⟨process_downlink_fport_branches.1 aesZero devAddrEx [] false none []
      255 none false [0x08, 0x01] 0 0 1 [0xAB] [0, 0, 0, 0] [(0x08, [])]
      (by decide) (by decide) (by decide) (by decide) (by decide),
   process_downlink_fport_branches.2 aesZero devAddrEx [] false none []
      255 none false [0x08, 0x01] 0 0 [] [0, 0, 0, 0] [(0x08, [])] []
      [] (by decide) (by decide) (by decide) (by decide) (by decide)
      (by decide)⟩

/-- C10 counterexample: on the concrete FPort-1 downlink
`60 DA1B0126 02 0000 0801 01 AB 00000000` the stack queues the
RXTimingSetupAns while processing FOpts but does not drain it:
`pending_mac_response_bytes` stays `none`, the handler queue is left
non-empty, and nothing is handed to an application hook — contradicting
the claim that both FPort cases drain pending responses. -/
theorem process_downlink_no_drain_counterexample :
    process_downlink aesZero devAddrEx [] false none [] 255 none
        [0x60, 0xDA, 0x1B, 0x01, 0x26, 0x02, 0, 0, 0x08, 0x01, 0x01, 0xAB,
          0, 0, 0, 0] =
      .ok ⟨true, [⟨0x08, [0x01]⟩], [], false, none, none, [(0x08, [])]⟩ ∧
    ([(0x08, [])] : List (Nat × List Nat)) ≠ [] := by decide
